import Mathlib

/-!
Verification development for the alex secret vault (portdeveloper/alex).

The Go sources are shallowly embedded: pure functions become Lean functions,
the mutable store becomes explicit state passing, byte strings become List Nat,
Go maps become association lists with unique keys, and file I/O becomes an
explicit trace of file-system operations. The age encryption library
(filippo.io/age, an external dependency of the repository) is modelled by an
idealized authenticated container that records exactly the observable
behavior the repository relies on: scrypt recipients and identities reject an
empty passphrase, decryption with a non-matching passphrase fails with the
message "no identity matched any of the recipients", and decryption of bytes
that do not parse as an age container fails with a header-parse message.
-/

set_option maxRecDepth 4096

namespace Alex

/-! ## Shared character and list helpers -/

/-- Character class [A-Za-z_], the leading class of the identifier grammar and
of the variable-expansion regex in internal/runner/filter.go. -/
def identStart (c : Char) : Bool :=
  (('A' ≤ c) && (c ≤ 'Z')) || (('a' ≤ c) && (c ≤ 'z')) || c = '_'

/-- Character class [A-Za-z0-9_]. -/
def identChar (c : Char) : Bool :=
  identStart c || (('0' ≤ c) && (c ≤ '9'))

/-- ASCII lowercasing of one character, the fragment of Go strings.ToLower
relevant to the embedded code (all compared names are ASCII). -/
def lowerChar (c : Char) : Char :=
  if ('A' ≤ c) && (c ≤ 'Z') then Char.ofNat (c.toNat + 32) else c

/-- ASCII model of Go strings.ToLower. -/
def lowerStr (s : String) : String := String.mk (s.data.map lowerChar)

/-- leadSeq pat hay is true when pat is an initial segment of hay
(the comparison behind Go strings.HasPrefix and strings.Contains). -/
def leadSeq : List Char → List Char → Bool
  | [], _ => true
  | _ :: _, [] => false
  | a :: as, b :: bs => a = b && leadSeq as bs

/-- containsSeq pat hay is true when pat occurs contiguously inside hay. -/
def containsSeq : List Char → List Char → Bool
  | pat, [] => pat.isEmpty
  | pat, h :: t => leadSeq pat (h :: t) || containsSeq pat t

/-- Model of Go strings.Contains(s, sub). -/
def strContains (s sub : String) : Bool := containsSeq sub.data s.data

instance {ε : Type} {α : Type} [DecidableEq ε] [DecidableEq α] : DecidableEq (Except ε α) :=
  fun x y =>
    match x, y with
    | .ok a, .ok b =>
        if h : a = b then .isTrue (by rw [h]) else .isFalse (by intro he; cases he; exact h rfl)
    | .error a, .error b =>
        if h : a = b then .isTrue (by rw [h]) else .isFalse (by intro he; cases he; exact h rfl)
    | .ok _, .error _ => .isFalse (by intro h; cases h)
    | .error _, .ok _ => .isFalse (by intro h; cases h)

/-! ## Encryption engine

Embeds internal/secrets/encrypt.go. The encrypt function builds an age scrypt
recipient for the passphrase and pipes the plaintext through age.Encrypt; the
decrypt function (the error-classifying variant of the secrets package, whose
success path coincides with the plain variant) builds an age scrypt identity
and classifies the failure of age.Decrypt by message content. -/

/-- Idealized age container: either a well-formed encrypted container that
binds the scrypt passphrase it was produced with to its payload, or raw bytes
that do not parse as an age container. -/
inductive Blob where
  | container : String → List Nat → Blob
  | raw : List Nat → Blob
deriving DecidableEq

/-- Message of the error age returns from NewScryptRecipient and
NewScryptIdentity when the passphrase is empty (modelled after the
library, which rejects an empty scrypt passphrase). -/
def scryptEmptyMsg : String := "passphrase must not be empty"

/-- Message age.Decrypt produces when no identity can unwrap the file key,
which for a scrypt container means the passphrase did not match. -/
def noIdentityMsg : String := "no identity matched any of the recipients"

/-- Message age.Decrypt produces when the input does not parse as an age
container (header parse failure). -/
def badHeaderMsg : String := "failed to read header: parsing age header: unexpected intro"

/-- encrypt from internal/secrets/encrypt.go: age.NewScryptRecipient then
age.Encrypt of the data; the only failure on well-formed input is the
rejection by the library of an empty passphrase. -/
def encrypt (data : List Nat) (passphrase : String) : Except String Blob :=
  if passphrase = "" then .error scryptEmptyMsg
  else .ok (.container passphrase data)

/-- Observable behavior of age.Decrypt with a scrypt identity: raw bytes fail
at header parsing; a container opens exactly when the passphrase matches. -/
def ageDecrypt (b : Blob) (passphrase : String) : Except String (List Nat) :=
  match b with
  | .raw _ => .error badHeaderMsg
  | .container p payload =>
      if p = passphrase then .ok payload else .error noIdentityMsg

/-- Error kinds produced by decrypt: the ErrWrongPassphrase sentinel, the
wrapped "invalid passphrase format" error, the wrapped "corrupted secrets
file (not a valid encrypted file)" error, and the wrapped generic
"decryption failed" error. -/
inductive DecryptErr where
  | wrongPassphrase
  | invalidPassphraseFormat : String → DecryptErr
  | corrupted : String → DecryptErr
  | decryptionFailed : String → DecryptErr
deriving DecidableEq

/-- Classification of an age.Decrypt error message, as the decrypt function
does with strings.Contains: the wrong-passphrase signatures map to
ErrWrongPassphrase, the malformed-container signatures map to the corrupted
error, anything else to the generic decryption-failed error. -/
def classifyErr (msg : String) : DecryptErr :=
  if strContains msg "no identity matched" || strContains msg "incorrect passphrase"
      || strContains msg "failed to decrypt" then
    .wrongPassphrase
  else if strContains msg "unknown format" || strContains msg "header" then
    .corrupted msg
  else
    .decryptionFailed msg

/-- decrypt from the secrets package: age.NewScryptIdentity (failing on an
empty passphrase with the wrapped invalid-passphrase-format error), then
age.Decrypt, classifying its failure by message content. -/
def decrypt (data : Blob) (passphrase : String) : Except DecryptErr (List Nat) :=
  if passphrase = "" then .error (.invalidPassphraseFormat scryptEmptyMsg)
  else
    match ageDecrypt data passphrase with
    | .ok plain => .ok plain
    | .error msg => .error (classifyErr msg)

/-- Round-trip check: encrypt then decrypt under the same passphrase
recovers the plaintext. -/
def roundTrip (x : List Nat) (p : String) : Bool :=
  match encrypt x p with
  | .error _ => false
  | .ok c =>
      match decrypt c p with
      | .ok y => y == x
      | .error _ => false

/-- Outcome of encrypting under p1 and decrypting under p2: the decrypt error
if both steps run and decrypt fails, none otherwise. -/
def wrongKeyOutcome (x : List Nat) (p1 p2 : String) : Option DecryptErr :=
  match encrypt x p1 with
  | .error _ => none
  | .ok c =>
      match decrypt c p2 with
      | .ok _ => none
      | .error e => some e

/-! ## Encrypted store

Embeds internal/secrets/store.go. The secrets map is an association list with
unique keys; timestamps are abstract Nat instants supplied by the caller in
place of time.Now(). -/

/-- Secret record from store.go: value plus created/updated timestamps. -/
structure Secret where
  value : String
  createdAt : Nat
  updatedAt : Nat
deriving DecidableEq

/-- Go map lookup on the secrets association list. -/
def lookupSec : List (String × Secret) → String → Option Secret
  | [], _ => none
  | (k, v) :: rest, key => if k = key then some v else lookupSec rest key

/-- Go map assignment: replace the binding if the key is present, else add it. -/
def insertSec : List (String × Secret) → String → Secret → List (String × Secret)
  | [], key, v => [(key, v)]
  | (k, w) :: rest, key, v =>
      if k = key then (key, v) :: rest else (k, w) :: insertSec rest key v

/-- Go map delete: drop the binding of the key if present. -/
def eraseSec : List (String × Secret) → String → List (String × Secret)
  | [], _ => []
  | (k, w) :: rest, key => if k = key then rest else (k, w) :: eraseSec rest key

/-- Store.Set on the in-memory map: keep CreatedAt of an existing entry,
else stamp it with now; UpdatedAt is always now. -/
def storeSet (m : List (String × Secret)) (key value : String) (now : Nat) :
    List (String × Secret) :=
  match lookupSec m key with
  | some existing =>
      insertSec m key { value := value, createdAt := existing.createdAt, updatedAt := now }
  | none =>
      insertSec m key { value := value, createdAt := now, updatedAt := now }

/-- Injective byte encoding of a string (length, then code points); stands in
for the JSON encoding of a string in json.Marshal. -/
def encStr (s : String) : List Nat := s.data.length :: s.data.map Char.toNat

/-- Injective byte encoding of a Secret record. -/
def encSecret (s : Secret) : List Nat := encStr s.value ++ [s.createdAt, s.updatedAt]

/-- Injective byte encoding of the whole secrets map; stands in for
json.Marshal(s.secrets) in save. -/
def serialize (m : List (String × Secret)) : List Nat :=
  m.length :: m.foldr (fun kv acc => encStr kv.1 ++ encSecret kv.2 ++ acc) []

/-- Wire bytes of a blob (tag, then contents); stands in for the age
on-disk byte format of the age container. -/
def blobBytes : Blob → List Nat
  | .container p payload => 1 :: encStr p ++ payload
  | .raw bs => 0 :: bs

/-! ## File-system trace model

os.WriteFile(name, data, perm) opens the target with O_TRUNC, writes the
buffer, and closes; there is no temporary file and no rename in store.go, so
those are the only primitive operations the embedding needs. The disk is the
content of the single store file. -/

/-- Primitive file operations on the store file. -/
inductive FsOp where
  | openTruncOp : Nat → FsOp
  | writeOp : List Nat → FsOp
  | closeOp : FsOp
deriving DecidableEq

/-- Effect of one file operation on the store file content
(none = file absent). Opening with O_TRUNC creates or empties the file;
a write appends to the current content. -/
def fsStep : Option (List Nat) → FsOp → Option (List Nat)
  | _, .openTruncOp _ => some []
  | some c, .writeOp d => some (c ++ d)
  | none, .writeOp d => some d
  | st, .closeOp => st

/-- File content after running a whole trace. -/
def runFs (init : Option (List Nat)) (tr : List FsOp) : Option (List Nat) :=
  tr.foldl fsStep init

/-- All on-disk states observable while a trace executes: the state before
each operation and the final state. -/
def observables : Option (List Nat) → List FsOp → List (Option (List Nat))
  | st, [] => [st]
  | st, op :: tr => st :: observables (fsStep st op) tr

/-- save from store.go: json.Marshal the whole map, encrypt it, and
os.WriteFile the container to the store file with permission 0600. The
resulting trace is open-with-truncate, write, close. -/
def save (m : List (String × Secret)) (p : String) : Except String (List FsOp) :=
  match encrypt (serialize m) p with
  | .error e => .error e
  | .ok c => .ok [.openTruncOp 0o600, .writeOp (blobBytes c), .closeOp]

/-- Trace produced by save, empty when save fails before touching the disk. -/
def saveTraceOf (m : List (String × Secret)) (p : String) : List FsOp :=
  match save m p with
  | .ok tr => tr
  | .error _ => []

/-- Store.Set followed by its immediate save: the map is mutated first, then
save runs; on a save failure the error is returned with the map already
mutated and nothing written. Result, new map, file trace. -/
def setStore (m : List (String × Secret)) (key value : String) (now : Nat) (p : String) :
    Except String Unit × List (String × Secret) × List FsOp :=
  let m2 := storeSet m key value now
  match save m2 p with
  | .ok tr => (.ok (), m2, tr)
  | .error e => (.error e, m2, [])

/-- Store.Delete: an absent key returns the not-found error before any
mutation or save; otherwise the key is removed and save runs. -/
def deleteStore (m : List (String × Secret)) (key : String) (p : String) :
    Except String Unit × List (String × Secret) × List FsOp :=
  match lookupSec m key with
  | none => (.error "secret not found", m, [])
  | some _ =>
      let m2 := eraseSec m key
      match save m2 p with
      | .ok tr => (.ok (), m2, tr)
      | .error e => (.error e, m2, [])

/-- Store.Get: value and found flag; no mutation, no file operation. -/
def getStore (m : List (String × Secret)) (key : String) :
    (String × Bool) × List (String × Secret) × List FsOp :=
  (match lookupSec m key with
   | none => ("", false)
   | some s => (s.value, true), m, [])

/-- Store.List: names with metadata only, values blanked; no mutation, no
file operation. -/
def listStore (m : List (String × Secret)) :
    List (String × Secret) × List (String × Secret) × List FsOp :=
  (m.map fun kv =>
    (kv.1, { value := "", createdAt := kv.2.createdAt, updatedAt := kv.2.updatedAt }), m, [])

/-- Store.GetAll: names with full values; no mutation, no file operation. -/
def getAllStore (m : List (String × Secret)) :
    List (String × String) × List (String × Secret) × List FsOp :=
  (m.map fun kv => (kv.1, kv.2.value), m, [])

/-- Store.Count: number of secrets; no mutation, no file operation. -/
def countStore (m : List (String × Secret)) :
    Nat × List (String × Secret) × List FsOp :=
  (m.length, m, [])

/-- isValidKey from the cmd package: the identifier grammar
[A-Za-z_][A-Za-z0-9_]* as a total check of the whole key. -/
def isValidKey (key : String) : Bool :=
  match key.data with
  | [] => false
  | c :: rest => identStart c && rest.all identChar

/-- The set command from the cmd package: rejects an empty value before
opening the store, then calls Store.Set; it performs no key validation. -/
def setCommand (m : List (String × Secret)) (key value : String) (now : Nat) (p : String) :
    Except String Unit × List (String × Secret) × List FsOp :=
  if value = "" then (.error "value cannot be empty", m, [])
  else setStore m key value now p

/-! ## Command safety classifier

Embeds internal/runner/filter.go (the default-deny allowlist variant, the
authoritative rule set of the source). Go regexp patterns are embedded as
explicit regex syntax trees and evaluated by a backtracking matcher; a
case-insensitive pattern is matched against the lowercased input with its
literals lowercased, which is equivalent for these ASCII patterns. -/

/-- Regex syntax: empty word, single character from a class, concatenation,
alternation, Kleene star, word boundary, end of text. Start-of-text
anchoring is a flag of the whole pattern. -/
inductive Reg where
  | eps : Reg
  | chr : (Char → Bool) → Reg
  | cat : Reg → Reg → Reg
  | alt : Reg → Reg → Reg
  | star : Reg → Reg
  | wordB : Reg
  | eos : Reg

/-- Word character for the regex word boundary: [0-9A-Za-z_]. -/
def isWordChar (c : Char) : Bool := identChar c

/-- Word-character test of an optional previous character (text edge counts
as a non-word position). -/
def wOpt : Option Char → Bool
  | none => false
  | some c => isWordChar c

/-- Word-character test of the next character of the remaining text. -/
def wHead : List Char → Bool
  | [] => false
  | c :: _ => isWordChar c

/-- Fuel-bounded backtracking matcher in continuation style. The state is
the previous character (for word boundaries) and the remaining text; the
continuation receives both after the current piece has matched. Fuel bounds
the recursion depth and is chosen large enough for every evaluated input. -/
def accept : Nat → Reg → Option Char → List Char → (Option Char → List Char → Bool) → Bool
  | 0, _, _, _, _ => false
  | _ + 1, .eps, prev, s, k => k prev s
  | _ + 1, .chr _, _, [], _ => false
  | _ + 1, .chr p, _, c :: s, k => p c && k (some c) s
  | f + 1, .cat a b, prev, s, k =>
      accept f a prev s (fun p2 s2 => accept f b p2 s2 k)
  | f + 1, .alt a b, prev, s, k => accept f a prev s k || accept f b prev s k
  | f + 1, .star a, prev, s, k =>
      k prev s ||
        accept f a prev s (fun p2 s2 =>
          decide (s2.length < s.length) && accept f (.star a) p2 s2 k)
  | _ + 1, .wordB, prev, s, k => (wOpt prev != wHead s) && k prev s
  | _ + 1, .eos, prev, s, k => s.isEmpty && k prev s

/-- Size of a regex, used to compute sufficient fuel. -/
def regSize : Reg → Nat
  | .eps => 1
  | .chr _ => 1
  | .cat a b => regSize a + regSize b + 1
  | .alt a b => regSize a + regSize b + 1
  | .star a => regSize a + 1
  | .wordB => 1
  | .eos => 1

/-- Match the regex at the current position; the remainder of the text is
unconstrained unless the pattern ends in eos. -/
def matchTop (f : Nat) (r : Reg) (prev : Option Char) (s : List Char) : Bool :=
  accept f r prev s (fun _ _ => true)

/-- Unanchored search: match at some position of the text. -/
def searchAll (f : Nat) (r : Reg) : Option Char → List Char → Bool
  | prev, [] => matchTop f r prev []
  | prev, c :: rest => matchTop f r prev (c :: rest) || searchAll f r (some c) rest

/-- One Go regexp pattern: case-insensitivity flag, start-of-text anchoring
flag, and the regex body. -/
structure Pat where
  ci : Bool
  anch : Bool
  reg : Reg

/-- Model of Go regexp MatchString for an embedded pattern. -/
def matchPat (p : Pat) (s : String) : Bool :=
  let cs := (if p.ci then lowerStr s else s).data
  let f := (regSize p.reg + 2) * (cs.length + 2)
  if p.anch then matchTop f p.reg none cs else searchAll f p.reg none cs

/-- Single literal character. -/
def rchar (c : Char) : Reg := .chr (fun x => x = c)

/-- Literal string. -/
def rstr (s : String) : Reg := s.data.foldr (fun c acc => .cat (rchar c) acc) .eps

/-- Sequence of regexes. -/
def rseq (l : List Reg) : Reg := l.foldr .cat .eps

/-- Ordered alternation of regexes. -/
def rAlts : List Reg → Reg
  | [] => .eps
  | [r] => r
  | r :: rs => .alt r (rAlts rs)

/-- Optional piece (regexp ?). -/
def ropt (r : Reg) : Reg := .alt r .eps

/-- Go regexp whitespace class backslash-s. -/
def wsChar (c : Char) : Bool :=
  c = ' ' || c = '\t' || c = '\n' || c = Char.ofNat 12 || c = '\r'

/-- One or more whitespace characters. -/
def rws1 : Reg := .cat (.chr wsChar) (.star (.chr wsChar))

/-- Zero or more whitespace characters. -/
def rwss : Reg := .star (.chr wsChar)

/-- Any character but newline (regexp dot). -/
def rdot : Reg := .chr (fun c => !(c = '\n'))

/-- Single-quote character. -/
def sqChar : Char := Char.ofNat 39

/-- Double-quote character. -/
def dqChar : Char := Char.ofNat 34

/-- Opening curly brace character. -/
def lbChar : Char := Char.ofNat 123

/-- Closing curly brace character. -/
def rbChar : Char := Char.ofNat 125

/-- codeExecutionPatterns from filter.go, in source order. -/
def codeExecutionPatterns : List Pat := [
  -- (?i)^node\s+(-e|--eval|-p|--print)\s
  ⟨true, true, rseq [rstr "node", rws1,
    rAlts [rstr "-e", rstr "--eval", rstr "-p", rstr "--print"], .chr wsChar]⟩,
  -- (?i)^node\s+(-e|--eval|-p|--print)$
  ⟨true, true, rseq [rstr "node", rws1,
    rAlts [rstr "-e", rstr "--eval", rstr "-p", rstr "--print"], .eos]⟩,
  -- (?i)^python[23]?\s+(-c|--command)\s
  ⟨true, true, rseq [rstr "python", ropt (.chr (fun c => c = '2' || c = '3')), rws1,
    rAlts [rstr "-c", rstr "--command"], .chr wsChar]⟩,
  -- (?i)^python[23]?\s+(-c|--command)$
  ⟨true, true, rseq [rstr "python", ropt (.chr (fun c => c = '2' || c = '3')), rws1,
    rAlts [rstr "-c", rstr "--command"], .eos]⟩,
  -- (?i)^ruby\s+(-e|--execute)\s
  ⟨true, true, rseq [rstr "ruby", rws1, rAlts [rstr "-e", rstr "--execute"], .chr wsChar]⟩,
  -- (?i)^perl\s+(-e|-E|--execute)\s   (both -e alternates coincide lowercased)
  ⟨true, true, rseq [rstr "perl", rws1,
    rAlts [rstr "-e", rstr "-e", rstr "--execute"], .chr wsChar]⟩,
  -- (?i)^php\s+(-r|--run)\s
  ⟨true, true, rseq [rstr "php", rws1, rAlts [rstr "-r", rstr "--run"], .chr wsChar]⟩,
  -- (?i)^swift\s+(-e)\s
  ⟨true, true, rseq [rstr "swift", rws1, rstr "-e", .chr wsChar]⟩,
  -- (?i)^lua\s+(-e)\s
  ⟨true, true, rseq [rstr "lua", rws1, rstr "-e", .chr wsChar]⟩,
  -- (?i)^(sh|bash|zsh|dash|ksh|fish)\s+(-c)\s
  ⟨true, true, rseq [rAlts [rstr "sh", rstr "bash", rstr "zsh", rstr "dash",
    rstr "ksh", rstr "fish"], rws1, rstr "-c", .chr wsChar]⟩,
  -- (?i)^deno\s+(eval)\s
  ⟨true, true, rseq [rstr "deno", rws1, rstr "eval", .chr wsChar]⟩,
  -- (?i)^bun\s+(-e|--eval)\s
  ⟨true, true, rseq [rstr "bun", rws1, rAlts [rstr "-e", rstr "--eval"], .chr wsChar]⟩,
  -- \s+-e\s+.
  ⟨false, false, rseq [rws1, rstr "-e", rws1, rdot]⟩,
  -- backslash-s+-e then a single quote then a dot
  ⟨false, false, rseq [rws1, rstr "-e", rchar sqChar, rdot]⟩,
  -- \s+-e".
  ⟨false, false, rseq [rws1, rstr "-e", rchar dqChar, rdot]⟩,
  -- \s+-E\s+.
  ⟨false, false, rseq [rws1, rstr "-E", rws1, rdot]⟩,
  -- \s+--eval\s
  ⟨false, false, rseq [rws1, rstr "--eval", .chr wsChar]⟩,
  -- \s+--exec\s
  ⟨false, false, rseq [rws1, rstr "--exec", .chr wsChar]⟩,
  -- \s+--execute\s
  ⟨false, false, rseq [rws1, rstr "--execute", .chr wsChar]⟩,
  -- \s+--run\s
  ⟨false, false, rseq [rws1, rstr "--run", .chr wsChar]⟩,
  -- \s+--print\s
  ⟨false, false, rseq [rws1, rstr "--print", .chr wsChar]⟩,
  -- \s+--command\s
  ⟨false, false, rseq [rws1, rstr "--command", .chr wsChar]⟩,
  -- (?i)^[gmnl]?awk backslash-s+ then a single quote
  ⟨true, true, rseq [ropt (.chr (fun c => c = 'g' || c = 'm' || c = 'n' || c = 'l')),
    rstr "awk", rws1, rchar sqChar]⟩,
  -- (?i)^[gmnl]?awk\s+"
  ⟨true, true, rseq [ropt (.chr (fun c => c = 'g' || c = 'm' || c = 'n' || c = 'l')),
    rstr "awk", rws1, rchar dqChar]⟩,
  -- (?i)^[gmnl]?awk\s+-f
  ⟨true, true, rseq [ropt (.chr (fun c => c = 'g' || c = 'm' || c = 'n' || c = 'l')),
    rstr "awk", rws1, rstr "-f"]⟩,
  -- \bENVIRON\s*\[
  ⟨false, false, rseq [.wordB, rstr "ENVIRON", rwss, rchar '[']⟩,
  -- \beval\s*\(
  ⟨false, false, rseq [.wordB, rstr "eval", rwss, rchar '(']⟩,
  -- \bexec\s*\(
  ⟨false, false, rseq [.wordB, rstr "exec", rwss, rchar '(']⟩,
  -- \bFunction\s*\(
  ⟨false, false, rseq [.wordB, rstr "Function", rwss, rchar '(']⟩,
  -- (?i)^npm\s+(run|start|test|exec|explore)\b
  ⟨true, true, rseq [rstr "npm", rws1,
    rAlts [rstr "run", rstr "start", rstr "test", rstr "exec", rstr "explore"], .wordB]⟩,
  -- (?i)^yarn\s+(run|start|test|exec|dlx)\b
  ⟨true, true, rseq [rstr "yarn", rws1,
    rAlts [rstr "run", rstr "start", rstr "test", rstr "exec", rstr "dlx"], .wordB]⟩,
  -- (?i)^pnpm\s+(run|start|test|exec|dlx)\b
  ⟨true, true, rseq [rstr "pnpm", rws1,
    rAlts [rstr "run", rstr "start", rstr "test", rstr "exec", rstr "dlx"], .wordB]⟩,
  -- (?i)^bun\s+(run|start|test|x)\b
  ⟨true, true, rseq [rstr "bun", rws1,
    rAlts [rstr "run", rstr "start", rstr "test", rstr "x"], .wordB]⟩,
  -- (?i)^npx\b
  ⟨true, true, rseq [rstr "npx", .wordB]⟩,
  -- (?i)^bunx\b
  ⟨true, true, rseq [rstr "bunx", .wordB]⟩]

/-- suspiciousPatterns from filter.go, in source order. -/
def suspiciousPatterns : List Pat := [
  -- ^env$
  ⟨false, true, rseq [rstr "env", .eos]⟩,
  -- ^printenv
  ⟨false, true, rstr "printenv"⟩,
  -- ^export$
  ⟨false, true, rseq [rstr "export", .eos]⟩,
  -- ^set$
  ⟨false, true, rseq [rstr "set", .eos]⟩,
  -- ^sh\s+-c
  ⟨false, true, rseq [rstr "sh", rws1, rstr "-c"]⟩,
  -- ^bash\s+-c
  ⟨false, true, rseq [rstr "bash", rws1, rstr "-c"]⟩,
  -- ^zsh\s+-c
  ⟨false, true, rseq [rstr "zsh", rws1, rstr "-c"]⟩,
  -- \$\{?[A-Za-z_][A-Za-z0-9_]*\}?
  ⟨false, false, rseq [rchar '$', ropt (rchar lbChar), .chr identStart,
    .star (.chr identChar), ropt (rchar rbChar)]⟩,
  -- process\.env
  ⟨false, false, rstr "process.env"⟩,
  -- os\.environ
  ⟨false, false, rstr "os.environ"⟩,
  -- ENV\[
  ⟨false, false, rstr "ENV["⟩,
  -- getenv\(
  ⟨false, false, rstr "getenv("⟩,
  -- ^echo\s+\$
  ⟨false, true, rseq [rstr "echo", rws1, rchar '$']⟩,
  -- ^printf.*\$
  ⟨false, true, rseq [rstr "printf", .star rdot, rchar '$']⟩]

/-- suspiciousCommands from filter.go: exact environment-dumping names. -/
def suspiciousCommands : List String := ["env", "printenv", "export", "set"]

/-- allowedCommands from filter.go: the allowlist of commands that run
without confirmation. -/
def allowedCommands : List String := [
  "npm", "yarn", "pnpm", "npx", "bun", "deno", "pip", "pip3", "pipx", "poetry",
  "pdm", "uv", "go", "cargo", "rustup", "bundle", "gem", "composer", "maven",
  "mvn", "gradle", "ant", "make", "cmake", "ninja", "meson", "bazel",
  "node", "python", "python3", "ruby", "rustc", "gcc", "g++", "clang",
  "clang++", "javac", "java", "dotnet", "swift", "swiftc", "tsc", "esbuild",
  "vite", "webpack", "rollup", "parcel",
  "git", "gh", "hub", "svn", "hg",
  "docker", "podman", "kubectl", "helm", "terraform", "pulumi", "aws",
  "gcloud", "az", "flyctl", "vercel", "netlify", "railway", "heroku",
  "ls", "cat", "head", "tail", "less", "more", "cp", "mv", "rm", "mkdir",
  "rmdir", "touch", "chmod", "chown", "ln", "find", "grep", "rg", "fd", "ag",
  "wc", "sort", "uniq", "diff", "patch", "tar", "zip", "unzip", "gzip",
  "gunzip", "bzip2", "xz",
  "curl", "wget", "ssh", "scp", "rsync", "ping", "dig", "nslookup", "nc",
  "netcat",
  "vim", "nvim", "nano", "emacs", "code", "subl",
  "pytest", "jest", "mocha", "vitest", "rspec", "phpunit", "go-test",
  "eslint", "prettier", "black", "ruff", "mypy", "pylint", "flake8",
  "rubocop", "gofmt", "rustfmt", "clippy", "shellcheck",
  "echo", "printf", "read", "test", "[",
  "man", "which", "whereis", "file", "stat", "du", "df", "top", "htop", "ps",
  "kill", "pkill", "killall", "date", "cal", "bc", "sleep", "true", "false",
  "yes", "seq", "basename", "dirname", "realpath", "pwd", "whoami", "id",
  "groups", "uname", "hostname", "uptime", "free", "lsof", "strace", "time",
  "xargs", "tee", "cut", "tr", "rev", "column", "paste", "join", "comm",
  "cmp", "md5sum", "sha256sum", "base64", "od", "xxd", "hexdump"]

/-- Part of the base command after its last slash (Go strings.LastIndex
slicing in isAllowedCommand). -/
def afterLastSlash (s : List Char) : List Char :=
  s.foldl (fun acc c => if c = '/' then [] else acc ++ [c]) []

/-- isAllowedCommand from filter.go: strip any path prefix, lowercase, and
look the base name up in the allowlist. -/
def isAllowedCommand (cmd : String) : Bool :=
  allowedCommands.contains (lowerStr (String.mk (afterLastSlash cmd.data)))

/-- Reason reported by the exact-name denylist stage. -/
def reasonDenylist : String := "This command displays environment variables"

/-- Reason reported by the inline-code-execution stage. -/
def reasonInline : String :=
  "This command executes inline code which could access environment variables"

/-- Reason reported by the environment-access-pattern stage. -/
def reasonEnvAccess : String := "This command may expose environment variables"

/-- Reason reported by the allowlist fallback stage. -/
def reasonAllowlist : String :=
  "This command is not in the allowlist and may access environment variables"

/-- Space-joined command string (Go strings.Join(args, " ")). -/
def joinArgs (args : List String) : String := String.intercalate " " args

/-- IsSuspicious from filter.go: empty input is not suspicious; then the
lowercased first argument is tested against the exact-name denylist, the
space-joined command line against the inline-code-execution patterns, then
against the environment-access patterns, and finally the base command
against the allowlist (default deny). -/
def IsSuspicious : List String → Bool × String
  | [] => (false, "")
  | a :: rest =>
    let cmd := lowerStr a
    if suspiciousCommands.contains cmd then (true, reasonDenylist)
    else
      let fullCmd := joinArgs (a :: rest)
      if codeExecutionPatterns.any (fun p => matchPat p fullCmd) then (true, reasonInline)
      else if suspiciousPatterns.any (fun p => matchPat p fullCmd) then (true, reasonEnvAccess)
      else if !(isAllowedCommand cmd) then (true, reasonAllowlist)
      else (false, "")

/-! ## Secret injection

Embeds the environment construction of runner.Run: the child environment is
os.Environ() with one KEY=VALUE entry appended per secret, in that order and
without removing same-named inherited entries. -/

/-- One environment entry, fmt.Sprintf with a percent-s equals percent-s
format: key, equals sign, value. -/
def envEntry (kv : String × String) : String :=
  String.mk (kv.1.data ++ '=' :: kv.2.data)

/-- Child environment built by runner.Run: inherited entries first, then one
entry per secret. -/
def buildEnv (environ : List String) (secrets : List (String × String)) : List String :=
  environ ++ secrets.map envEntry

/-- Entry match for an environment lookup: the entry starts with the name
followed by an equals sign. -/
def entryMatches (name : String) (entry : String) : Bool :=
  leadSeq (name.data ++ ['=']) entry.data

/-- Environment lookup taking the first matching entry — the POSIX getenv
convention a launched C program sees. -/
def lookupEnvFirst (env : List String) (name : String) : Option String :=
  match env with
  | [] => none
  | e :: rest =>
      if entryMatches name e then some (String.mk (e.data.drop (name.data.length + 1)))
      else lookupEnvFirst rest name

/-- Environment lookup taking the last matching entry — the convention of
consumers that fold the environment array into a map, later entries
overriding earlier ones. -/
def lookupEnvLast (env : List String) (name : String) : Option String :=
  lookupEnvFirst env.reverse name

/-- Mutating store operations, for reasoning about operation sequences. -/
inductive MutOp where
  | mset : String → String → Nat → MutOp
  | mdel : String → MutOp
deriving DecidableEq

/-- In-memory effect of one mutating operation (Delete of an absent key
leaves the map unchanged). -/
def applyMut (m : List (String × Secret)) : MutOp → List (String × Secret)
  | .mset k v t => storeSet m k v t
  | .mdel k =>
      match lookupSec m k with
      | none => m
      | some _ => eraseSec m k

/-- In-memory effect of a sequence of mutating operations. -/
def applyMuts (m : List (String × Secret)) (ops : List MutOp) : List (String × Secret) :=
  ops.foldl applyMut m

/-- Modelled from the spec: the claimed persistence discipline that the
on-disk file is replaced all-or-nothing, so that every state observable
while the trace executes is either the initial content or the final content
(the spec phrase is that no partial writes are ever observable). This is the
claimed property, stated from the words of the spec, to be compared with the
trace the source actually produces. -/
def atomicReplaceSpec (init : Option (List Nat)) (tr : List FsOp) : Bool :=
  (observables init tr).all (fun st => st == init || st == runFs init tr)

/-! ## Helper lemmas -/

theorem lookupSec_insertSec_self (m : List (String × Secret)) (k : String) (v : Secret) :
    lookupSec (insertSec m k v) k = some v := by
  induction m with
  | nil => simp [insertSec, lookupSec]
  | cons hd tl ih =>
      obtain ⟨k1, w⟩ := hd
      by_cases h : k1 = k
      · simp [insertSec, h, lookupSec]
      · simp [insertSec, h, lookupSec, ih]

theorem lookupSec_insertSec_other (m : List (String × Secret)) (k k2 : String) (v : Secret)
    (h : k ≠ k2) : lookupSec (insertSec m k v) k2 = lookupSec m k2 := by
  induction m with
  | nil => simp [insertSec, lookupSec, h]
  | cons hd tl ih =>
      obtain ⟨k1, w⟩ := hd
      by_cases h1 : k1 = k
      · simp [insertSec, h1, lookupSec, h]
      · simp only [insertSec, h1, if_false, lookupSec]
        by_cases h2 : k1 = k2 <;> simp [h2, ih]

theorem lookupSec_eraseSec_other (m : List (String × Secret)) (k k2 : String)
    (h : k ≠ k2) : lookupSec (eraseSec m k) k2 = lookupSec m k2 := by
  induction m with
  | nil => simp [eraseSec, lookupSec]
  | cons hd tl ih =>
      obtain ⟨k1, w⟩ := hd
      by_cases h1 : k1 = k
      · subst h1
        simp [eraseSec, lookupSec, h]
      · simp only [eraseSec, h1, if_false, lookupSec]
        by_cases h2 : k1 = k2 <;> simp [h2, ih]

theorem storeSet_lookup_existing (m : List (String × Secret)) (k v : String) (now : Nat)
    (r : Secret) (h : lookupSec m k = some r) :
    lookupSec (storeSet m k v now) k
      = some { value := v, createdAt := r.createdAt, updatedAt := now } := by
  simp [storeSet, h, lookupSec_insertSec_self]

theorem storeSet_lookup_new (m : List (String × Secret)) (k v : String) (now : Nat)
    (h : lookupSec m k = none) :
    lookupSec (storeSet m k v now) k
      = some { value := v, createdAt := now, updatedAt := now } := by
  simp [storeSet, h, lookupSec_insertSec_self]

theorem storeSet_lookup_other (m : List (String × Secret)) (k k2 v : String) (now : Nat)
    (h : k ≠ k2) : lookupSec (storeSet m k v now) k2 = lookupSec m k2 := by
  cases hl : lookupSec m k <;> simp [storeSet, hl, lookupSec_insertSec_other _ _ _ _ h]

theorem applyMut_lookup_of_ne_mdel (m : List (String × Secret)) (k : String) (op : MutOp)
    (r : Secret) (hr : lookupSec m k = some r) (hop : op ≠ .mdel k) :
    ∃ r2, lookupSec (applyMut m op) k = some r2 ∧ r2.createdAt = r.createdAt := by
  cases op with
  | mset k2 v t =>
      by_cases hk : k2 = k
      · subst hk
        exact ⟨_, storeSet_lookup_existing m k2 v t r hr, rfl⟩
      · exact ⟨r, by simpa [applyMut, storeSet_lookup_other m k2 k v t hk] using hr, rfl⟩
  | mdel k2 =>
      have hk : k2 ≠ k := by
        intro h
        exact hop (by rw [h])
      cases hl : lookupSec m k2 with
      | none => exact ⟨r, by simpa [applyMut, hl] using hr, rfl⟩
      | some w =>
          exact ⟨r, by simpa [applyMut, hl, lookupSec_eraseSec_other m k2 k hk] using hr, rfl⟩

theorem applyMuts_createdAt_stable (ops : List MutOp) :
    ∀ (m : List (String × Secret)) (k : String) (r : Secret),
      lookupSec m k = some r → (∀ op ∈ ops, op ≠ .mdel k) →
      ∃ r2, lookupSec (applyMuts m ops) k = some r2 ∧ r2.createdAt = r.createdAt := by
  induction ops with
  | nil => exact fun m k r hr _ => ⟨r, hr, rfl⟩
  | cons op tl ih =>
      intro m k r hr hops
      obtain ⟨r1, hr1, hc1⟩ :=
        applyMut_lookup_of_ne_mdel m k op r hr (hops op (List.mem_cons_self op tl))
      obtain ⟨r2, hr2, hc2⟩ :=
        ih (applyMut m op) k r1 hr1 (fun o ho => hops o (List.mem_cons_of_mem op ho))
      exact ⟨r2, hr2, hc2.trans hc1⟩

/-! ## Claims -/

/-- C1, counterexample: the round trip fails for the empty passphrase, on
which encryption itself already fails (the age scrypt recipient rejects an
empty passphrase), so decrypt(encrypt(x, p), p) does not return x for every
passphrase p. -/
theorem C1_counterexample :
    roundTrip [] "" = false ∧ encrypt [] "" = .error scryptEmptyMsg :=
  ⟨rfl, rfl⟩

/-- C1 (amended): for every byte string x (including the empty string) and
every non-empty passphrase p, decrypt(encrypt(x, p), p) succeeds and returns
exactly x. -/
theorem C1_round_trip (x : List Nat) (p : String) (h : p ≠ "") :
    roundTrip x p = true := by
  simp [roundTrip, encrypt, decrypt, ageDecrypt, h]

/-- C1 witness: the round trip evaluated at a concrete plaintext and
passphrase. -/
theorem C1_round_trip_witness : roundTrip [1, 2, 3] "machine-id-hash" = true :=
  C1_round_trip [1, 2, 3] "machine-id-hash" (by decide)

/-- C2, counterexample: decrypting with the empty passphrase p2 (different
from the encryption passphrase p1) does not fail with the WrongPassphrase
kind but with the wrapped invalid-passphrase-format error, a generic error
kind, refuting that a mismatched passphrase always yields WrongPassphrase. -/
theorem C2_counterexample :
    ("" : String) ≠ "p1" ∧
    wrongKeyOutcome [7] "p1" "" = some (.invalidPassphraseFormat scryptEmptyMsg) ∧
    DecryptErr.invalidPassphraseFormat scryptEmptyMsg ≠ DecryptErr.wrongPassphrase := by
  refine ⟨by decide, rfl, by decide⟩

/-- C2 (amended): for non-empty passphrases, decrypting a container produced
under p1 with p2 different from p1 fails with exactly the WrongPassphrase
kind; decrypting bytes that are not a valid encrypted container fails with
exactly the Corrupted (not a valid container) kind; and the two kinds are
distinct, hence separately identifiable by the caller. -/
theorem C2_error_kinds :
    (∀ (x : List Nat) (p1 p2 : String), p1 ≠ "" → p2 ≠ "" → p2 ≠ p1 →
      wrongKeyOutcome x p1 p2 = some .wrongPassphrase) ∧
    (∀ (bs : List Nat) (p : String), p ≠ "" →
      decrypt (.raw bs) p = .error (.corrupted badHeaderMsg)) ∧
    (∀ msg, DecryptErr.wrongPassphrase ≠ DecryptErr.corrupted msg) := by
  refine ⟨?_, ?_, ?_⟩
  · intro x p1 p2 h1 h2 hne
    have hc : classifyErr noIdentityMsg = .wrongPassphrase := rfl
    have hne2 : ¬(p1 = p2) := fun h => hne h.symm
    simp [wrongKeyOutcome, encrypt, decrypt, ageDecrypt, h1, h2, hne2, hc]
  · intro bs p hp
    have hc : classifyErr badHeaderMsg = .corrupted badHeaderMsg := rfl
    simp [decrypt, ageDecrypt, hp, hc]
  · intro msg h
    cases h

/-- C2 witness: the two error kinds evaluated at concrete inputs. -/
theorem C2_error_kinds_witness :
    wrongKeyOutcome [7] "p1" "p2" = some .wrongPassphrase ∧
    decrypt (.raw [0, 1]) "p1" = .error (.corrupted badHeaderMsg) :=
  ⟨C2_error_kinds.1 [7] "p1" "p2" (by decide) (by decide) (by decide),
   C2_error_kinds.2.1 [0, 1] "p1" (by decide)⟩

/-- C3, counterexample: the denylist stage does not ignore a directory
prefix on argv[0]. The command /usr/bin/env, whose base name after path
stripping and lowercasing is exactly env, is reported through the allowlist
fallback with the allowlist reason, not with the displays-environment
reason the claim requires. -/
theorem C3_counterexample :
    lowerStr (String.mk (afterLastSlash ("/usr/bin/env").data)) = "env" ∧
    IsSuspicious ["/usr/bin/env"] = (true, reasonAllowlist) ∧
    reasonAllowlist ≠ reasonDenylist := by
  refine ⟨by decide, by decide, by decide⟩

/-- C3 (amended): the exact-name denylist compares the lowercased argv[0]
without stripping any directory prefix; for every argv whose first element
lowercased is one of env, printenv, export, set, the classifier is
suspicious with the displays-environment-variables reason, regardless of
any trailing arguments. -/
theorem C3_denylist (a : String) (rest : List String)
    (h : suspiciousCommands.contains (lowerStr a) = true) :
    IsSuspicious (a :: rest) = (true, reasonDenylist) := by
  have hm : lowerStr a ∈ suspiciousCommands := by simpa using h
  simp [IsSuspicious, hm]

/-- C3 witness: the denylist applied to an uppercase name with trailing
arguments. -/
theorem C3_denylist_witness : IsSuspicious ["ENV", "x"] = (true, reasonDenylist) :=
  C3_denylist "ENV" ["x"] (by decide)

/-- C4: default-deny allowlist fallback. If a non-empty argv matches no
earlier stage (denylist, inline-code-execution, environment-access patterns)
and its base command is not in the allowlist, the classifier is suspicious
with the allowlist reason; and classify of git status is not suspicious. -/
theorem C4_default_deny :
    (∀ (a : String) (rest : List String),
      suspiciousCommands.contains (lowerStr a) = false →
      codeExecutionPatterns.any (fun p => matchPat p (joinArgs (a :: rest))) = false →
      suspiciousPatterns.any (fun p => matchPat p (joinArgs (a :: rest))) = false →
      isAllowedCommand (lowerStr a) = false →
      IsSuspicious (a :: rest) = (true, reasonAllowlist)) ∧
    IsSuspicious ["git", "status"] = (false, "") := by
  constructor
  · intro a rest h1 h2 h3 h4
    have hm : lowerStr a ∉ suspiciousCommands := by simpa using h1
    have he2 : ¬∃ x ∈ codeExecutionPatterns, matchPat x (joinArgs (a :: rest)) = true := by
      simpa using h2
    have he3 : ¬∃ x ∈ suspiciousPatterns, matchPat x (joinArgs (a :: rest)) = true := by
      simpa using h3
    simp [IsSuspicious, hm, he2, he3, h4]
  · decide

/-- C4 witness: the allowlist fallback evaluated on a command that matches
no pattern and is not in the allowlist. -/
theorem C4_default_deny_witness :
    IsSuspicious ["some-custom-script"] = (true, reasonAllowlist) :=
  C4_default_deny.1 "some-custom-script" [] (by decide) (by decide) (by decide) (by decide)

/-- C5: inline-code-execution stage. Whenever the denylist did not fire and
some inline-code-execution pattern matches the joined command line, the
verdict is suspicious with the inline-code reason — the stage is evaluated
before the environment-access patterns and before the allowlist fallback,
so a command matching several stages receives the inline-code reason; and
the three concrete examples behave as claimed. -/
theorem C5_inline_exec :
    (∀ (a : String) (rest : List String),
      suspiciousCommands.contains (lowerStr a) = false →
      codeExecutionPatterns.any (fun p => matchPat p (joinArgs (a :: rest))) = true →
      IsSuspicious (a :: rest) = (true, reasonInline)) ∧
    IsSuspicious ["node", "-e", "console.log(1)"] = (true, reasonInline) ∧
    IsSuspicious ["python", "-c", "print(1)"] = (true, reasonInline) ∧
    IsSuspicious ["node", "script.js"] = (false, "") := by
  refine ⟨?_, by decide, by decide, by decide⟩
  intro a rest h1 h2
  have hm : lowerStr a ∉ suspiciousCommands := by simpa using h1
  have he2 : ∃ x ∈ codeExecutionPatterns, matchPat x (joinArgs (a :: rest)) = true := by
    simpa using h2
  simp [IsSuspicious, hm, he2]

/-- C5 witness: the inline-code stage evaluated on a ruby one-liner that
also contains a variable-expansion pattern, still reported with the
inline-code reason. -/
theorem C5_inline_exec_witness :
    IsSuspicious ["ruby", "-e", "puts ENV"] = (true, reasonInline) :=
  C5_inline_exec.1 "ruby" ["-e", "puts ENV"] (by decide) (by decide)

/-- C6, counterexample: a name violating the identifier grammar is accepted
by the set path and persisted — set performs no name validation, refuting
that set fails with InvalidName before any persistence. -/
theorem C6_counterexample :
    isValidKey "123X" = false ∧
    (setCommand [] "123X" "v" 5 "pw").1 = .ok () ∧
    (setCommand [] "123X" "v" 5 "pw").2.2 ≠ ([] : List FsOp) := by
  refine ⟨by decide, by decide, by decide⟩

/-- C6 (amended): set rejects an empty value before opening the store and
performing any persistence; with a non-empty value it succeeds for every
name, grammar-conforming or not, updating the map through Store.Set; the
identifier grammar [A-Za-z_][A-Za-z0-9_]* is checked by isValidKey (used on
the import path only), which accepts the underscore name and A1 and rejects
123X, MY-VAR and the empty name. -/
theorem C6_set_validation :
    (∀ (m : List (String × Secret)) (key : String) (now : Nat) (p : String),
      setCommand m key "" now p = (.error "value cannot be empty", m, [])) ∧
    (∀ (m : List (String × Secret)) (key value : String) (now : Nat) (p : String),
      value ≠ "" → p ≠ "" →
      (setCommand m key value now p).1 = .ok () ∧
      (setCommand m key value now p).2.1 = storeSet m key value now) ∧
    isValidKey "_" = true ∧ isValidKey "A1" = true ∧
    isValidKey "123X" = false ∧ isValidKey "MY-VAR" = false ∧ isValidKey "" = false := by
  refine ⟨?_, ?_, by decide, by decide, by decide, by decide, by decide⟩
  · intro m key now p
    simp [setCommand]
  · intro m key value now p hv hp
    constructor <;> simp [setCommand, hv, setStore, save, encrypt, hp]

/-- C6 witness: the validation behavior evaluated at concrete inputs. -/
theorem C6_set_validation_witness :
    setCommand [] "K" "" 0 "pw" = (.error "value cannot be empty", [], []) ∧
    (setCommand [] "A1" "x" 0 "pw").1 = .ok () ∧
    (setCommand [] "A1" "x" 0 "pw").2.1 = storeSet [] "A1" "x" 0 :=
  ⟨C6_set_validation.1 [] "K" 0 "pw",
   (C6_set_validation.2.1 [] "A1" "x" 0 "pw" (by decide) (by decide)).1,
   (C6_set_validation.2.1 [] "A1" "x" 0 "pw" (by decide) (by decide)).2⟩

/-- C7, counterexample: createdAt does not survive every operation
sequence. Setting K at time 1, deleting it, and setting it again at time 2
yields createdAt 2, not the original 1 — deletion ends the lifetime of the
secret and the re-creation is a fresh first write. -/
theorem C7_counterexample :
    lookupSec (applyMuts [] [.mset "K" "v" 1]) "K"
      = some { value := "v", createdAt := 1, updatedAt := 1 } ∧
    lookupSec (applyMuts [] [.mset "K" "v" 1, .mdel "K", .mset "K" "w" 2]) "K"
      = some { value := "w", createdAt := 2, updatedAt := 2 } ∧
    (2 : Nat) ≠ 1 := by
  refine ⟨by decide, by decide, by decide⟩

/-- C7 (amended): a Set on an existing secret preserves its createdAt and
stamps updatedAt with the time of the write; a first write stamps both with
the time of the write; and createdAt stays unchanged under every sequence
of operations that does not delete the name (a Delete followed by a Set
starts a new lifetime with a fresh createdAt). -/
theorem C7_timestamps :
    (∀ (m : List (String × Secret)) (k v : String) (now : Nat) (r : Secret),
      lookupSec m k = some r →
      lookupSec (storeSet m k v now) k
        = some { value := v, createdAt := r.createdAt, updatedAt := now }) ∧
    (∀ (m : List (String × Secret)) (k v : String) (now : Nat),
      lookupSec m k = none →
      lookupSec (storeSet m k v now) k
        = some { value := v, createdAt := now, updatedAt := now }) ∧
    (∀ (ops : List MutOp) (m : List (String × Secret)) (k : String) (r : Secret),
      lookupSec m k = some r → (∀ op ∈ ops, op ≠ .mdel k) →
      ∃ r2, lookupSec (applyMuts m ops) k = some r2 ∧ r2.createdAt = r.createdAt) :=
  ⟨storeSet_lookup_existing, storeSet_lookup_new, applyMuts_createdAt_stable⟩

/-- C7 witness: timestamp discipline evaluated at concrete inputs. -/
theorem C7_timestamps_witness :
    lookupSec (storeSet [("K", { value := "a", createdAt := 3, updatedAt := 4 })] "K" "b" 9) "K"
      = some { value := "b", createdAt := 3, updatedAt := 9 } ∧
    ∃ r2, lookupSec (applyMuts [("K", { value := "a", createdAt := 3, updatedAt := 4 })]
        [.mset "K" "b" 9, .mset "X" "y" 10]) "K" = some r2 ∧ r2.createdAt = 3 :=
  ⟨C7_timestamps.1 _ "K" "b" 9 { value := "a", createdAt := 3, updatedAt := 4 } (by decide),
   C7_timestamps.2.2 [.mset "K" "b" 9, .mset "X" "y" 10] _ "K"
     { value := "a", createdAt := 3, updatedAt := 4 } (by decide) (by decide)⟩

/-- C8, counterexample: the persistence of a mutating call is not an atomic
replace. The trace save produces (open with truncation, write, close) has
an observable intermediate state — the truncated empty file — that is
neither the previous content nor the final content, refuting that no
partially written store file is ever observable. -/
theorem C8_counterexample :
    atomicReplaceSpec (some [9]) (saveTraceOf (storeSet [] "A" "v" 0) "pw") = false ∧
    saveTraceOf (storeSet [] "A" "v" 0) "pw" ≠ [] := by
  refine ⟨by decide, by decide⟩

/-- C8 (amended): every mutating store call serializes the entire map,
encrypts it, and rewrites the store file in place with owner-only
permissions 0600 through a single truncate-then-write (os.WriteFile) with
no temporary file and no rename; the final on-disk content is the complete
encrypted container, but the replacement is not all-or-nothing. -/
theorem C8_persistence :
    ∀ (m : List (String × Secret)) (key value : String) (now : Nat) (p : String)
      (init : Option (List Nat)), p ≠ "" →
      save m p = .ok [.openTruncOp 0o600,
        .writeOp (blobBytes (.container p (serialize m))), .closeOp] ∧
      runFs init (saveTraceOf m p) = some (blobBytes (.container p (serialize m))) ∧
      (setStore m key value now p).2.2 = saveTraceOf (storeSet m key value now) p ∧
      (∀ r, lookupSec m key = some r →
        (deleteStore m key p).2.2 = saveTraceOf (eraseSec m key) p) := by
  intro m key value now p init hp
  refine ⟨?_, ?_, ?_, ?_⟩
  · simp [save, encrypt, hp]
  · simp [saveTraceOf, save, encrypt, hp, runFs, fsStep]
  · simp [setStore, saveTraceOf, save, encrypt, hp]
  · intro r hr
    simp [deleteStore, hr, saveTraceOf, save, encrypt, hp]

/-- C8 witness: the persistence trace evaluated at a concrete store state. -/
theorem C8_persistence_witness :
    save [] "pw" = .ok [.openTruncOp 0o600,
      .writeOp (blobBytes (.container "pw" (serialize ([] : List (String × Secret))))),
      .closeOp] ∧
    runFs (some [9]) (saveTraceOf ([] : List (String × Secret)) "pw")
      = some (blobBytes (.container "pw" (serialize ([] : List (String × Secret))))) :=
  ⟨(C8_persistence [] "A" "v" 0 "pw" (some [9]) (by decide)).1,
   (C8_persistence [] "A" "v" 0 "pw" (some [9]) (by decide)).2.1⟩

/-! Helper lemmas for the environment lookups of C9. -/

theorem leadSeq_append_self (l : List Char) (x : Char) (r : List Char) :
    leadSeq (l ++ [x]) (l ++ x :: r) = true := by
  induction l with
  | nil => simp [leadSeq]
  | cons c t ih => simp [leadSeq, ih]

theorem drop_append_cons (l : List Char) (x : Char) (r : List Char) :
    (l ++ x :: r).drop (l.length + 1) = r := by
  induction l with
  | nil => simp
  | cons c t ih => simp [ih]

theorem leadSeq_append_ne (a : List Char) :
    ∀ (b r : List Char), a ≠ b → (∀ c ∈ a, c ≠ '=') → (∀ c ∈ b, c ≠ '=') →
      leadSeq (a ++ ['=']) (b ++ '=' :: r) = false := by
  induction a with
  | nil =>
      intro b r hne _ hb
      cases b with
      | nil => exact absurd rfl hne
      | cons c bt =>
          have hc : c ≠ '=' := hb c (List.mem_cons_self c bt)
          have hc2 : ¬('=' = c) := fun h => hc h.symm
          simp [leadSeq, hc2]
  | cons c at2 ih =>
      intro b r hne ha hb
      cases b with
      | nil =>
          have hc : c ≠ '=' := ha c (List.mem_cons_self c at2)
          simp [leadSeq, hc]
      | cons c2 bt =>
          by_cases hcc : c = c2
          · subst hcc
            have hne2 : at2 ≠ bt := fun h => hne (by rw [h])
            have := ih bt r hne2 (fun x hx => ha x (List.mem_cons_of_mem c hx))
              (fun x hx => hb x (List.mem_cons_of_mem c hx))
            simp [leadSeq, this]
          · simp [leadSeq, hcc]

theorem entryMatches_envEntry_self (k v : String) :
    entryMatches k (envEntry (k, v)) = true :=
  leadSeq_append_self k.data '=' v.data

theorem entryMatches_envEntry_other (k k2 v2 : String) (hk : k2 ≠ k)
    (ha : ∀ c ∈ k.data, c ≠ '=') (hb : ∀ c ∈ k2.data, c ≠ '=') :
    entryMatches k (envEntry (k2, v2)) = false := by
  have hda : k.data ≠ k2.data := by
    intro h
    apply hk
    cases k
    cases k2
    simp_all
  exact leadSeq_append_ne k.data k2.data v2.data hda ha hb

theorem lookupEnvFirst_map_envEntry (s : List (String × String)) (k v : String)
    (hnd : (s.map Prod.fst).Nodup)
    (hne : ∀ kv ∈ s, ∀ c ∈ kv.1.data, c ≠ '=')
    (hmem : (k, v) ∈ s) :
    lookupEnvFirst (s.map envEntry) k = some v := by
  induction s with
  | nil => cases hmem
  | cons hd tl ih =>
      obtain ⟨k1, v1⟩ := hd
      rcases List.mem_cons.mp hmem with heq | hmemtl
      · cases heq
        have hm := entryMatches_envEntry_self k v
        simp only [List.map_cons, lookupEnvFirst, hm, if_true]
        have hdrop : (envEntry (k, v)).data.drop (k.data.length + 1) = v.data :=
          drop_append_cons k.data '=' v.data
        rw [hdrop]
      · have hk1 : k1 ≠ k := by
          intro h
          subst h
          have hmap : k1 ∈ tl.map Prod.fst :=
            List.mem_map_of_mem Prod.fst hmemtl
          exact (List.nodup_cons.mp hnd).1 hmap
        have hkeq : ∀ c ∈ k.data, c ≠ '=' := hne (k, v) hmem
        have hk1eq : ∀ c ∈ k1.data, c ≠ '=' :=
          hne (k1, v1) (List.mem_cons_self (k1, v1) tl)
        have hm := entryMatches_envEntry_other k k1 v1 hk1 hkeq hk1eq
        simp only [List.map_cons, lookupEnvFirst, hm, if_false, Bool.false_eq_true]
        exact ih (List.nodup_cons.mp hnd).2
          (fun kv hkv => hne kv (List.mem_cons_of_mem (k1, v1) hkv)) hmemtl

theorem lookupEnvFirst_append_some (l1 l2 : List String) (k v : String)
    (h : lookupEnvFirst l1 k = some v) :
    lookupEnvFirst (l1 ++ l2) k = some v := by
  induction l1 with
  | nil => cases h
  | cons e t ih =>
      by_cases hm : entryMatches k e = true
      · simpa [lookupEnvFirst, hm] using h
      · rw [List.cons_append]
        simp only [lookupEnvFirst, hm, if_false] at h ⊢
        exact ih h

theorem lookupEnvFirst_append_none (l1 l2 : List String) (k : String)
    (h : lookupEnvFirst l1 k = none) :
    lookupEnvFirst (l1 ++ l2) k = lookupEnvFirst l2 k := by
  induction l1 with
  | nil => rfl
  | cons e t ih =>
      by_cases hm : entryMatches k e = true
      · simp [lookupEnvFirst, hm] at h
      · rw [List.cons_append]
        simp only [lookupEnvFirst, hm, if_false] at h ⊢
        exact ih h

/-- C9, counterexample: the injected entries are appended after the
inherited environment without removing same-named inherited entries, so a
consumer resolving the first occurrence — the POSIX getenv convention —
sees the inherited value, not the secret value, refuting that the effective
value is the secret value for every launched program. -/
theorem C9_counterexample :
    ("K", "new") ∈ [("K", "new")] ∧
    buildEnv ["K=old"] [("K", "new")] = ["K=old", "K=new"] ∧
    lookupEnvFirst (buildEnv ["K=old"] [("K", "new")]) "K" = some "old" ∧
    (some "old" : Option String) ≠ some "new" := by
  refine ⟨by decide, by decide, by decide, by decide⟩

/-- C9 (amended): runWithSecrets appends one KEY=VALUE entry per secret
after the inherited environment, without deduplication. For every name in
the secrets map (names being well-formed, without an equals sign, and
unique), a consumer resolving the last occurrence sees the secret value —
so the secret wins under last-occurrence semantics — and when the name does
not match any inherited entry, a consumer resolving the first occurrence
sees the secret value as well. -/
theorem C9_env_override :
    (∀ (environ : List String) (secrets : List (String × String)) (k v : String),
      (secrets.map Prod.fst).Nodup →
      (∀ kv ∈ secrets, ∀ c ∈ kv.1.data, c ≠ '=') →
      (k, v) ∈ secrets →
      lookupEnvLast (buildEnv environ secrets) k = some v) ∧
    (∀ (environ : List String) (secrets : List (String × String)) (k v : String),
      (secrets.map Prod.fst).Nodup →
      (∀ kv ∈ secrets, ∀ c ∈ kv.1.data, c ≠ '=') →
      (k, v) ∈ secrets →
      lookupEnvFirst environ k = none →
      lookupEnvFirst (buildEnv environ secrets) k = some v) := by
  constructor
  · intro environ secrets k v hnd hne hmem
    unfold lookupEnvLast buildEnv
    rw [List.reverse_append]
    rw [show (secrets.map envEntry).reverse = secrets.reverse.map envEntry from
      (List.map_reverse envEntry secrets).symm]
    apply lookupEnvFirst_append_some
    apply lookupEnvFirst_map_envEntry
    · rw [List.map_reverse]
      exact List.nodup_reverse.mpr hnd
    · exact fun kv hkv => hne kv (List.mem_reverse.mp hkv)
    · exact List.mem_reverse.mpr hmem
  · intro environ secrets k v hnd hne hmem henv
    unfold buildEnv
    rw [lookupEnvFirst_append_none _ _ _ henv]
    exact lookupEnvFirst_map_envEntry secrets k v hnd hne hmem

/-- C9 witness: both lookup conventions evaluated on a concrete environment
and secret map. -/
theorem C9_env_override_witness :
    lookupEnvLast (buildEnv ["A=1"] [("B", "2")]) "B" = some "2" ∧
    lookupEnvFirst (buildEnv ["A=1"] [("B", "2")]) "B" = some "2" :=
  ⟨C9_env_override.1 ["A=1"] [("B", "2")] "B" "2" (by decide) (by decide) (by decide),
   C9_env_override.2 ["A=1"] [("B", "2")] "B" "2" (by decide) (by decide) (by decide)
     (by decide)⟩

/-- C10: Delete of an absent name returns the not-found error and leaves
the in-memory map and the on-disk file untouched (no save is performed);
the read-only operations Get, List, GetAll and Count return their result
with the map unchanged and no file operation. -/
theorem C10_delete_absent :
    (∀ (m : List (String × Secret)) (key p : String), lookupSec m key = none →
      deleteStore m key p = (.error "secret not found", m, [])) ∧
    (∀ (m : List (String × Secret)) (key : String),
      (getStore m key).2.1 = m ∧ (getStore m key).2.2 = []) ∧
    (∀ (m : List (String × Secret)), (listStore m).2.1 = m ∧ (listStore m).2.2 = []) ∧
    (∀ (m : List (String × Secret)), (getAllStore m).2.1 = m ∧ (getAllStore m).2.2 = []) ∧
    (∀ (m : List (String × Secret)), (countStore m).2.1 = m ∧ (countStore m).2.2 = []) := by
  refine ⟨?_, fun m key => ⟨rfl, rfl⟩, fun m => ⟨rfl, rfl⟩, fun m => ⟨rfl, rfl⟩,
    fun m => ⟨rfl, rfl⟩⟩
  intro m key p h
  simp [deleteStore, h]

/-- C10 witness: Delete of an absent name evaluated on a concrete store. -/
theorem C10_delete_absent_witness :
    deleteStore [("A", { value := "v", createdAt := 0, updatedAt := 0 })] "B" "pw"
      = (.error "secret not found",
         [("A", { value := "v", createdAt := 0, updatedAt := 0 })], []) :=
  C10_delete_absent.1 [("A", { value := "v", createdAt := 0, updatedAt := 0 })] "B" "pw"
    (by decide)

end Alex
